import Mathlib

/-!
Verification of the video_cut plan-builder core: a shallow embedding of
src/hardware_detect.py, src/state.py, src/utils.py and src/Args.py.

Modelling conventions:
- probe text captured from the external engine is a `List Char` (Python
  `str`); all capability names involved are ASCII, so Python
  `str.lower()` is modelled with `Char.toLower`;
- Python `set[str]` is modelled as a list whose membership is the set
  membership;
- Python integers are `Int` (with `Int.fdiv` for `//`) or `Nat` where the
  source value is provably non-negative;
- subprocess results are inputs of the modelled functions: each probe
  receives the standard output and standard error text of its invocation.
-/

set_option maxRecDepth 10000
set_option maxHeartbeats 1000000

/-- ASCII model of Python `str.lower()`. -/
def asciiLower (s : List Char) : List Char := s.map Char.toLower

/-- Python default whitespace, as recognised by `str.strip()`/`str.split()`. -/
def isSpacePy (c : Char) : Bool :=
  c = ' ' || c = '\t' || c = '\n' || c = '\r' || c = '\x0b' || c = '\x0c'

/-- Helper of `splitLines`: accumulates the current line (reversed). -/
def splitLinesAux : List Char → List Char → List (List Char)
  | [], acc => if acc = [] then [] else [acc.reverse]
  | c :: rest, acc =>
    if c = '\n' then acc.reverse :: splitLinesAux rest []
    else splitLinesAux rest (c :: acc)

/-- Python `str.splitlines()` for LF-separated text (the engine listings
    parsed here are LF-separated): no trailing empty line is produced. -/
def splitLines (s : List Char) : List (List Char) := splitLinesAux s []

/-- Python `str.strip()` with default whitespace. -/
def stripPy (s : List Char) : List Char :=
  ((s.dropWhile isSpacePy).reverse.dropWhile isSpacePy).reverse

/-- Helper of `splitWs`: accumulates the current token (reversed). -/
def splitWsAux : List Char → List Char → List (List Char)
  | [], acc => if acc = [] then [] else [acc.reverse]
  | c :: rest, acc =>
    if isSpacePy c then
      if acc = [] then splitWsAux rest [] else acc.reverse :: splitWsAux rest []
    else splitWsAux rest (c :: acc)

/-- Python `str.split()` with no separator: split on whitespace runs,
    dropping empty tokens. -/
def splitWs (s : List Char) : List (List Char) := splitWsAux s []

/-- Codec names probed by detect_hardware_encoders
    (src/hardware_detect.py line 17). -/
def probeCodecs : List (List Char) := ["h264".data, "hevc".data]

/-- Hardware encoder family names (src/hardware_detect.py line 18). -/
def probeEncoders : List (List Char) :=
  ["nvenc".data, "amf".data, "qsv".data, "vaapi".data, "videotoolbox".data]

/-- detect_hardware_encoders (src/hardware_detect.py lines 4-27): lowercases
    the concatenation of stdout and stderr and collects every family `e`
    such that some substring `"{codec}_{e}"` occurs in it. -/
def detect_hardware_encoders (stdout stderr : List Char) : List (List Char) :=
  let out := asciiLower (stdout ++ stderr)
  probeEncoders.filter (fun e =>
    probeCodecs.any (fun c => decide ((c ++ '_' :: e) <:+: out)))

/-- detect_hwaccels (src/hardware_detect.py lines 30-48): splits STANDARD
    OUTPUT ONLY into lines, strips each, drops blanks and the header line.
    The standard error text is received but unused, mirroring the source
    (`proc.stdout or ""`), and no lowercasing is applied. -/
def detect_hwaccels (stdout stderr : List Char) : List (List Char) :=
  (splitLines stdout).filterMap (fun ln =>
    let t := stripPy ln
    if t = [] then none
    else if t = "Hardware acceleration methods:".data then none
    else some t)

/-- Decoder name suffixes (src/hardware_detect.py line 53). -/
def decoderSuffixes : List (List Char) :=
  ["_qsv".data, "_cuvid".data, "_vaapi".data, "_videotoolbox".data,
   "_dxva2".data, "_d3d11va".data]

/-- detect_hardware_decoders (src/hardware_detect.py lines 51-72): from
    STANDARD OUTPUT ONLY, takes the second whitespace token of each line
    and keeps the names ending in one of the fixed suffixes.  As in the
    source, stderr is unused and no lowercasing is applied. -/
def detect_hardware_decoders (stdout stderr : List Char) : List (List Char) :=
  (splitLines stdout).filterMap (fun line =>
    match splitWs (stripPy line) with
    | _ :: name :: _ =>
      if decoderSuffixes.any (fun suf => decide (suf <:+ name)) then some name
      else none
    | _ => none)

/-- C5 counterexample: the capability name `cuda`, printed only on standard
    error by the engine, is NOT detected by the hardware-acceleration
    probe — refuting the claim that each of the three probes parses the
    combined stdout/stderr text. -/
theorem C5_probe_counterexample :
    ¬ ("cuda".data ∈
        detect_hwaccels [] "Hardware acceleration methods:\ncuda\n".data) := by
  decide

/-- C5 (amended): only the encoder probe parses the combined stdout+stderr
    case-insensitively; the hwaccel and decoder probes parse standard
    output only, verbatim.  Concretely: an encoder name appearing only on
    stderr and in upper case is still detected, while an hwaccel or
    decoder name appearing only on stderr is not. -/
theorem C5_probe_streams_amended :
    (∀ out err : List Char, detect_hwaccels out err = detect_hwaccels out []) ∧
    (∀ out err : List Char,
      detect_hardware_decoders out err = detect_hardware_decoders out []) ∧
    (∀ out err : List Char,
      detect_hardware_encoders out err =
        detect_hardware_encoders [] (out ++ err)) ∧
    detect_hardware_encoders [] "H264_NVENC".data = ["nvenc".data] ∧
    detect_hwaccels [] "cuda\n".data = [] ∧
    detect_hardware_decoders []
      " V..... h264_cuvid   Nvidia CUVID H264 decoder\n".data = [] := by
  refine ⟨fun out err => rfl, fun out err => rfl, fun out err => rfl,
    ?_, rfl, rfl⟩
  decide

/-- Capability snapshot (the HARDWARE_INFO dict of src/state.py and the
    result shape of detect_all_hardwares); the Python sets are lists whose
    membership is the set membership. -/
structure HWInfo where
  encoders : List String
  hwaccels : List String
  hwdecoders : List String
  deriving DecidableEq

/-- Record stored in the cache file env_cache.json
    (src/state.py save/load_environment). -/
structure CacheData where
  ffmpeg : String
  ffprobe : String
  encoders : List String
  hwaccels : List String
  hwdecoders : List String
  deriving DecidableEq

/-- Module-level mutable state of src/state.py: FFMPEG_PATH, FFPROBE_PATH
    and HARDWARE_INFO. -/
structure EnvState where
  ffmpegPath : String
  ffprobePath : String
  hardwareInfo : HWInfo
  deriving DecidableEq

/-- Header line filtered out of the cached hwaccels
    (src/state.py lines 77-79). -/
def hwaccelHeader : String := "Hardware acceleration methods:"

/-- load_environment (src/state.py lines 65-91).  `cache = none` covers a
    missing cache file, a JSON parse failure, and a cached engine path that
    is no longer runnable: all of these return False without mutating any
    state.  A readable cache overwrites the whole state first (including
    the engine paths); the call reports success only if the cached encoder
    set is non-empty.  `findFfprobe` models utils.find_ffprobe. -/
def load_environment (st : EnvState) (findFfprobe : String → String)
    (cache : Option CacheData) : EnvState × Bool :=
  match cache with
  | none => (st, false)
  | some d =>
    let fm := if d.ffmpeg = "" then "ffmpeg" else d.ffmpeg
    let fp := if d.ffprobe = "" then findFfprobe fm else d.ffprobe
    let info : HWInfo :=
      { encoders := d.encoders
        hwaccels := d.hwaccels.filter (fun x => x ≠ hwaccelHeader)
        hwdecoders := d.hwdecoders }
    (⟨fm, fp, info⟩, decide (info.encoders ≠ []))

/-- Python `x or y` for an optional string: `None` and `""` are falsy. -/
def optStrOr (o : Option String) (alt : String) : String :=
  match o with
  | some s => if s = "" then alt else s
  | none => alt

/-- set_environment (src/state.py lines 21-47).  `detected` is the probe
    result (`hwinfo or detect_all_hardwares(ffmpeg_path)` already
    resolved), `cache` models the cache file as in `load_environment`.
    Returns the resulting module state and whether save_environment was
    invoked (i.e. whether the state was persisted to the cache). -/
def set_environment (st0 : EnvState) (ffmpeg_path : String)
    (ffprobe_path : Option String) (findFfprobe : String → String)
    (detected : HWInfo) (cache : Option CacheData) : EnvState × Bool :=
  let fp := optStrOr ffprobe_path (findFfprobe ffmpeg_path)
  let st1 : EnvState := ⟨ffmpeg_path, fp, st0.hardwareInfo⟩
  let st2 :=
    if detected.encoders ≠ [] then { st1 with hardwareInfo := detected }
    else
      let res := load_environment st1 findFfprobe cache
      if res.2 = true ∧ res.1.hardwareInfo.encoders ≠ [] then
        { res.1 with ffmpegPath := ffmpeg_path, ffprobePath := fp }
      else
        { res.1 with hardwareInfo := detected }
  (st2, decide (st2.hardwareInfo.encoders ≠ []))

/-- C6: the fallback order of set_environment.  A non-empty probed (or
    supplied) encoder set is adopted and persisted; with an empty probe
    result, a valid cache with a non-empty encoder set has its
    capabilities adopted while the newly supplied engine/probe paths are
    kept; otherwise the empty probe result is adopted and nothing is
    persisted — an empty capability set is never written to the cache. -/
theorem C6_set_environment_fallback (st0 : EnvState) (fm : String)
    (fpp : Option String) (find : String → String) (det : HWInfo)
    (cache : Option CacheData) :
    (det.encoders ≠ [] →
      (set_environment st0 fm fpp find det cache).1.hardwareInfo = det ∧
      (set_environment st0 fm fpp find det cache).2 = true) ∧
    (∀ d, det.encoders = [] → cache = some d → d.encoders ≠ [] →
      (set_environment st0 fm fpp find det cache).1.hardwareInfo =
        ⟨d.encoders, d.hwaccels.filter (fun x => x ≠ hwaccelHeader),
         d.hwdecoders⟩ ∧
      (set_environment st0 fm fpp find det cache).1.ffmpegPath = fm ∧
      (set_environment st0 fm fpp find det cache).1.ffprobePath =
        optStrOr fpp (find fm) ∧
      (set_environment st0 fm fpp find det cache).2 = true) ∧
    (det.encoders = [] → cache = none →
      (set_environment st0 fm fpp find det cache).1.hardwareInfo = det ∧
      (set_environment st0 fm fpp find det cache).2 = false) ∧
    (∀ d, det.encoders = [] → cache = some d → d.encoders = [] →
      (set_environment st0 fm fpp find det cache).1.hardwareInfo = det ∧
      (set_environment st0 fm fpp find det cache).2 = false) ∧
    ((set_environment st0 fm fpp find det cache).2 = true →
      (set_environment st0 fm fpp find det cache).1.hardwareInfo.encoders ≠ []) := by
  refine ⟨?_, ?_, ?_, ?_, ?_⟩
  · intro hdet
    simp [set_environment, hdet]
  · intro d hdet hcache hd
    subst hcache
    simp [set_environment, load_environment, hdet, hd]
  · intro hdet hcache
    subst hcache
    simp [set_environment, load_environment, hdet]
  · intro d hdet hcache hd
    subst hcache
    simp [set_environment, load_environment, hdet, hd]
  · intro hsaved
    simp only [set_environment, decide_eq_true_eq] at hsaved ⊢
    exact hsaved

/-- C6 witness: a concrete non-empty probe result is adopted and persisted. -/
theorem C6_set_environment_fallback_witness :
    (set_environment ⟨"f0", "p0", ⟨[], [], []⟩⟩ "ffmpeg2" (some "probe2")
        (fun _ => "found") ⟨["nvenc"], ["cuda"], []⟩ none).1.hardwareInfo =
      ⟨["nvenc"], ["cuda"], []⟩ ∧
    (set_environment ⟨"f0", "p0", ⟨[], [], []⟩⟩ "ffmpeg2" (some "probe2")
        (fun _ => "found") ⟨["nvenc"], ["cuda"], []⟩ none).2 = true :=
  (C6_set_environment_fallback ⟨"f0", "p0", ⟨[], [], []⟩⟩ "ffmpeg2"
    (some "probe2") (fun _ => "found") ⟨["nvenc"], ["cuda"], []⟩ none).1
    (by decide)

/-- Characters of a POSIX path after its last separator
    (os.path.basename). -/
def baseNamePart (p : List Char) : List Char :=
  (p.reverse.takeWhile (fun c => c ≠ '/')).reverse

/-- os.path.splitext (posixpath): splits off the extension starting at the
    last dot of the final path component, unless every character of that
    component before the last dot is itself a dot (dot-files such as
    `.bashrc` have no extension). -/
def splitext (p : List Char) : List Char × List Char :=
  let base := baseNamePart p
  let stripped := base.dropWhile (fun c => c = '.')
  if stripped.contains '.' then
    let extLen := (p.reverse.takeWhile (fun c => c ≠ '.')).length + 1
    (p.take (p.length - extLen), p.drop (p.length - extLen))
  else (p, [])

/-- os.path.dirname (posixpath): the part before the last separator, with
    trailing separators removed unless the result is only separators. -/
def dirnamePart (p : List Char) : List Char :=
  let head := p.take (p.length - (baseNamePart p).length)
  if head ≠ [] ∧ head.any (fun c => c ≠ '/') then
    (head.reverse.dropWhile (fun c => c = '/')).reverse
  else head

/-- os.path.join (posixpath) for two components. -/
def joinPath (a b : List Char) : List Char :=
  if b.head? = some '/' then b
  else if a = [] ∨ a.getLast? = some '/' then a ++ b
  else a ++ '/' :: b

/-- utils.safe_time_str (src/utils.py lines 33-34): replaces ':' by '-'
    and ' ' by '_'. -/
def safe_time_str (t : List Char) : List Char :=
  t.map (fun c => if c = ':' then '-' else if c = ' ' then '_' else c)

/-- utils.default_output_path (src/utils.py lines 37-49). -/
def default_output_path (input_path start duration : List Char)
    (convert_to_mp4 : Bool) : List Char :=
  let dname := dirnamePart input_path
  let base := (splitext (baseNamePart input_path)).1
  let ext := if convert_to_mp4 then ".mp4".data else (splitext input_path).2
  let start_safe := safe_time_str start
  let out_name :=
    if duration ≠ [] then
      base ++ '_' :: start_safe ++ "_len_".data ++ safe_time_str duration ++ ext
    else base ++ '_' :: start_safe ++ ext
  joinPath (if dname ≠ [] then dname else ".".data) out_name

/-- Output-path resolution of Args.__post_init__ (src/Args.py lines
    38-44): an empty output falls back to default_output_path, then any
    extension that is not `.mp4` (case-insensitively) is replaced by
    `.mp4` whenever convert_mp4 is set.  The input path is taken as
    already absolute: os.path.abspath does not change the name components
    used by default_output_path. -/
def resolve_output (input_path start duration output : List Char)
    (convert_mp4 : Bool) : List Char :=
  let o :=
    if output = [] then default_output_path input_path start duration convert_mp4
    else output
  if convert_mp4 ∧ asciiLower (splitext o).2 ≠ ".mp4".data then
    (splitext o).1 ++ ".mp4".data
  else o

/-- Recombining the two halves of splitext gives back the path. -/
theorem splitext_fst_append_snd (p : List Char) :
    (splitext p).1 ++ (splitext p).2 = p := by
  simp only [splitext]
  split_ifs with h
  · exact List.take_append_drop _ _
  · simp

/-- C9: with convert_mp4 set, the resolved output path always ends in
    `.mp4` up to ASCII case (an already-`.mp4` extension in different case
    such as `.MP4` is kept verbatim), whether the output was user-supplied
    or derived from the input path. -/
theorem C9_output_mp4_extension (input_path start duration output : List Char) :
    ".mp4".data <:+
      asciiLower (resolve_output input_path start duration output true) := by
  unfold resolve_output
  set o :=
    if output = [] then default_output_path input_path start duration true
    else output with ho
  by_cases h : asciiLower (splitext o).2 = ".mp4".data
  · simp only [h, ne_eq, not_true_eq_false, and_false, if_false]
    conv_rhs => rw [← splitext_fst_append_snd o]
    unfold asciiLower
    rw [List.map_append]
    rw [show (splitext o).2.map Char.toLower = ".mp4".data from h]
    exact List.suffix_append _ _
  · simp only [h, ne_eq, not_false_eq_true, and_true, if_true]
    unfold asciiLower
    rw [List.map_append]
    rw [show ".mp4".data.map Char.toLower = ".mp4".data from by decide]
    exact List.suffix_append _ _

/-- Key order of the PREFERRED_ENCODERS ordered dict
    (src/Args.py lines 9-16). -/
def PREFERRED_ENCODERS : List String :=
  ["nvenc", "amf", "qsv", "vaapi", "videotoolbox", "cpu"]

/-- Encoder choice of Args.__post_init__ (src/Args.py lines 55-61): the
    first PREFERRED_ENCODERS key found in the capability encoder set, with
    the for-else falling back to cpu. -/
def choose_encoder (encoders : List String) : String :=
  match PREFERRED_ENCODERS.find? (fun e => decide (e ∈ encoders)) with
  | some e => e
  | none => "cpu"

/-- Priority rank as the claim states it: nvenc > amf > qsv > vaapi >
    videotoolbox > cpu, with 0 the highest priority. -/
def encoderRank (e : String) : Nat :=
  if e = "nvenc" then 0 else if e = "amf" then 1 else if e = "qsv" then 2
  else if e = "vaapi" then 3 else if e = "videotoolbox" then 4 else 5

/-- A satisfied element found by List.find? sits no later than any other
    satisfying element of the list. -/
theorem indexOf_find?_le {α : Type} [DecidableEq α] (p : α → Bool)
    (l : List α) (c e : α) (hf : l.find? p = some c) (he : e ∈ l)
    (hpe : p e = true) : l.indexOf c ≤ l.indexOf e := by
  induction l with
  | nil => cases he
  | cons a t ih =>
    by_cases hpa : p a = true
    · rw [List.find?_cons_of_pos t hpa] at hf
      injection hf with hf
      subst hf
      simp [List.indexOf_cons]
    · rw [List.find?_cons_of_neg t hpa] at hf
      have hca : a ≠ c := by
        intro heq
        exact hpa (heq ▸ List.find?_some hf)
      have hea : a ≠ e := by
        intro heq
        exact hpa (heq ▸ hpe)
      have he2 : e ∈ t := by
        rcases List.mem_cons.mp he with h1 | h1
        · exact absurd h1.symm hea
        · exact h1
      rw [List.indexOf_cons, List.indexOf_cons]
      have hbc : (a == c) = false := by simpa using hca
      have hbe : (a == e) = false := by simpa using hea
      rw [hbc, hbe]
      simpa using ih hf he2

/-- C1: for every capability snapshot whose encoder set only mentions the
    five hardware families, the chosen encoder is the highest-priority
    member present under nvenc > amf > qsv > vaapi > videotoolbox > cpu,
    and is cpu exactly when the set is empty. -/
theorem C1_chosen_encoder_priority (encoders : List String)
    (hsub : ∀ x ∈ encoders,
      x ∈ (["nvenc", "amf", "qsv", "vaapi", "videotoolbox"] : List String)) :
    (choose_encoder encoders = "cpu" ↔ encoders = []) ∧
    (encoders ≠ [] →
      choose_encoder encoders ∈ encoders ∧
      ∀ e ∈ encoders, encoderRank (choose_encoder encoders) ≤ encoderRank e) := by
  have hPE : ∀ x ∈ encoders, x ∈ PREFERRED_ENCODERS := by
    intro x hx
    have h5 := hsub x hx
    simp only [PREFERRED_ENCODERS, List.mem_cons, List.not_mem_nil] at h5 ⊢
    tauto
  cases hf : PREFERRED_ENCODERS.find? (fun e => decide (e ∈ encoders)) with
  | none =>
    have hc : choose_encoder encoders = "cpu" := by
      unfold choose_encoder
      rw [hf]
    have hnone := List.find?_eq_none.mp hf
    have hempty : encoders = [] := by
      cases hx : encoders with
      | nil => rfl
      | cons a t =>
        have ha : a ∈ encoders := by rw [hx]; exact List.mem_cons_self a t
        have hcontra := hnone a (hPE a ha)
        simp only [decide_eq_true_eq] at hcontra
        exact absurd ha hcontra
    subst hempty
    exact ⟨⟨fun _ => rfl, fun _ => hc⟩, fun hne => absurd rfl hne⟩
  | some c =>
    have hc : choose_encoder encoders = c := by
      unfold choose_encoder
      rw [hf]
    have hcmem : c ∈ encoders := by
      have := List.find?_some hf
      simpa using this
    have hcP : c ∈ PREFERRED_ENCODERS := List.mem_of_find?_eq_some hf
    have hne : encoders ≠ [] := by
      intro h
      rw [h] at hcmem
      exact absurd hcmem (List.not_mem_nil c)
    have hccpu : c ≠ "cpu" := by
      intro h
      have := hsub c hcmem
      rw [h] at this
      simp at this
    refine ⟨?_, ?_⟩
    · rw [hc]
      exact ⟨fun h => absurd h hccpu, fun h => absurd h hne⟩
    · intro _
      rw [hc]
      refine ⟨hcmem, ?_⟩
      intro e he
      have heP : e ∈ PREFERRED_ENCODERS := hPE e he
      have hidx := indexOf_find?_le (fun x => decide (x ∈ encoders))
        PREFERRED_ENCODERS c e hf heP (decide_eq_true he)
      have hrank : ∀ x ∈ PREFERRED_ENCODERS,
          encoderRank x = PREFERRED_ENCODERS.indexOf x := by decide
      rw [hrank c hcP, hrank e heP]
      exact hidx

/-- C1 witness: with capability set {qsv, vaapi} the chosen encoder is not
    cpu, is a member, and has the least rank. -/
theorem C1_chosen_encoder_priority_witness :
    (choose_encoder ["qsv", "vaapi"] = "cpu" ↔ (["qsv", "vaapi"] : List String) = []) ∧
    ((["qsv", "vaapi"] : List String) ≠ [] →
      choose_encoder ["qsv", "vaapi"] ∈ (["qsv", "vaapi"] : List String) ∧
      ∀ e ∈ (["qsv", "vaapi"] : List String),
        encoderRank (choose_encoder ["qsv", "vaapi"]) ≤ encoderRank e) :=
  C1_chosen_encoder_priority ["qsv", "vaapi"] (by decide)

/-- Per-encoder hwaccel candidate table of Args._select_hwaccel
    (src/Args.py lines 88-94); `priorities.get(...)` defaults to the
    empty list for cpu or any other key. -/
def hwaccel_priorities (enc : String) : List String :=
  if enc = "nvenc" then ["cuda"]
  else if enc = "amf" then ["d3d11va", "dxva2"]
  else if enc = "qsv" then ["qsv", "d3d11va", "dxva2"]
  else if enc = "vaapi" then ["vaapi"]
  else if enc = "videotoolbox" then ["videotoolbox"]
  else []

/-- Args._select_hwaccel (src/Args.py lines 87-100): none when the
    hwaccel set is empty, else the first candidate of the chosen
    encoder's table that is present in the set. -/
def select_hwaccel (enc : String) (hwaccels : List String) : Option String :=
  if hwaccels = [] then none
  else (hwaccel_priorities enc).find? (fun cand => decide (cand ∈ hwaccels))

/-- C7: a chosen hwaccel always belongs to the chosen encoder's fixed
    candidate list AND to the environment's hwaccel set — never a
    cross-family pairing — and the cpu encoder never gets an hwaccel. -/
theorem C7_hwaccel_pairing :
    (∀ enc hwaccels a, select_hwaccel enc hwaccels = some a →
      a ∈ hwaccels ∧
      ((enc = "nvenc" ∧ a ∈ (["cuda"] : List String)) ∨
       (enc = "amf" ∧ a ∈ (["d3d11va", "dxva2"] : List String)) ∨
       (enc = "qsv" ∧ a ∈ (["qsv", "d3d11va", "dxva2"] : List String)) ∨
       (enc = "vaapi" ∧ a ∈ (["vaapi"] : List String)) ∨
       (enc = "videotoolbox" ∧ a ∈ (["videotoolbox"] : List String)))) ∧
    (∀ hwaccels, select_hwaccel "cpu" hwaccels = none) := by
  constructor
  · intro enc hw a h
    unfold select_hwaccel at h
    split at h
    · exact absurd h (by simp)
    · have hmem : a ∈ hw := by
        have := List.find?_some h
        simpa using this
      have hcand : a ∈ hwaccel_priorities enc := List.mem_of_find?_eq_some h
      refine ⟨hmem, ?_⟩
      unfold hwaccel_priorities at hcand
      split_ifs at hcand with h1 h2 h3 h4 h5
      · exact Or.inl ⟨h1, hcand⟩
      · exact Or.inr (Or.inl ⟨h2, hcand⟩)
      · exact Or.inr (Or.inr (Or.inl ⟨h3, hcand⟩))
      · exact Or.inr (Or.inr (Or.inr (Or.inl ⟨h4, hcand⟩)))
      · exact Or.inr (Or.inr (Or.inr (Or.inr ⟨h5, hcand⟩)))
      · exact absurd hcand (List.not_mem_nil a)
  · intro hw
    unfold select_hwaccel
    split
    · rfl
    · rfl

/-- C7 witness: nvenc with hwaccel set {cuda} selects cuda, a member of
    both the candidate list and the set. -/
theorem C7_hwaccel_pairing_witness :
    "cuda" ∈ (["cuda"] : List String) ∧
    ((("nvenc" : String) = "nvenc" ∧ "cuda" ∈ (["cuda"] : List String)) ∨
     (("nvenc" : String) = "amf" ∧
       "cuda" ∈ (["d3d11va", "dxva2"] : List String)) ∨
     (("nvenc" : String) = "qsv" ∧
       "cuda" ∈ (["qsv", "d3d11va", "dxva2"] : List String)) ∨
     (("nvenc" : String) = "vaapi" ∧ "cuda" ∈ (["vaapi"] : List String)) ∨
     (("nvenc" : String) = "videotoolbox" ∧
       "cuda" ∈ (["videotoolbox"] : List String))) :=
  C7_hwaccel_pairing.1 "nvenc" ["cuda"] "cuda" (by decide)

/-- Precise-mode bitrate resolution of Args.__post_init__ (src/Args.py
    lines 72-78): the probe result (utils.probe_source_bitrate_bps returns
    a positive value or 0, never a negative one, hence Nat) replaces the
    field, and a falsy (zero) probe result is replaced by the 100000 bps
    floor; outside Precise mode the incoming field value is kept. -/
def post_init_source_bitrate (mode : String) (probed initial : Nat) : Nat :=
  if mode = "precise" then (if probed = 0 then 100000 else probed) else initial

/-- C8: in Precise mode the resulting source bitrate is always strictly
    positive, and equals exactly 100000 whenever probing failed (returned
    0). -/
theorem C8_precise_bitrate_default (mode : String) (probed initial : Nat)
    (h : mode = "precise") :
    0 < post_init_source_bitrate mode probed initial ∧
    (probed = 0 → post_init_source_bitrate mode probed initial = 100000) := by
  subst h
  unfold post_init_source_bitrate
  by_cases hp : probed = 0
  · simp [hp]
  · simp [hp, Nat.pos_of_ne_zero hp]

/-- C8 witness: a failed probe (0) in precise mode yields exactly 100000. -/
theorem C8_precise_bitrate_default_witness :
    post_init_source_bitrate "precise" 0 7 = 100000 :=
  (C8_precise_bitrate_default "precise" 0 7 rfl).2 rfl

/-- Fields of an Args instance (src/Args.py) read by build_command after
    __post_init__ ran, together with the module state FFMPEG_PATH that
    build_command reads (src/Args.py line 120). -/
structure ArgsState where
  ffmpegPath : String
  input : String
  start : String
  duration : String
  mode : String
  output : String
  convert_mp4 : Bool
  source_bitrate_bps : Int
  chosen_encoder : String
  chosen_hwaccel : Option String
  chosen_hwdecoder : Option String

/-- Python truthiness of `str | None`: `None` and `""` are falsy. -/
def optTruthy : Option String → Bool
  | none => false
  | some s => decide (s ≠ "")

/-- Output-format declaration chosen for an hwaccel by the inner match of
    the precise branch (src/Args.py lines 138-147); no default case, so
    any other name adds nothing. -/
def hwaccel_format_flags (hw : String) : List String :=
  if hw = "cuda" then ["-hwaccel_output_format", "cuda"]
  else if hw = "vaapi" then ["-hwaccel_output_format", "vaapi"]
  else if hw = "qsv" then ["-hwaccel_output_format", "qsv"]
  else if hw = "d3d11va" ∨ hw = "dxva2" then ["-hwaccel_output_format", "d3d11"]
  else []

/-- The pre_input accumulation of the precise branch (src/Args.py lines
    135-149): the hwaccel flags when chosen_hwaccel is truthy, then the
    decoder flag when chosen_hwdecoder is truthy. -/
def pre_input_args (hwaccel hwdecoder : Option String) : List String :=
  (if optTruthy hwaccel then
    match hwaccel with
    | some hw => ["-hwaccel", hw] ++ hwaccel_format_flags hw
    | none => []
  else []) ++
  (if optTruthy hwdecoder then
    match hwdecoder with
    | some d => ["-c:v", d]
    | none => []
  else [])

/-- Concrete encoder name of the precise branch (src/Args.py lines
    154-159): libx264/libx265 on cpu, else `{codec_tag}_{encoder}`. -/
def precise_enc_name (a : ArgsState) : String :=
  if a.chosen_encoder = "cpu" then
    if a.convert_mp4 then "libx264" else "libx265"
  else (if a.convert_mp4 then "h264" else "hevc") ++ "_" ++ a.chosen_encoder

/-- Rate-control flags of the precise branch (src/Args.py lines 163-172):
    `kbps = bps // 1000`, maxrate `int(kbps * 12 // 10)`, bufsize
    `int(kbps * 2)`; Python `//` is floor division, hence `Int.fdiv`. -/
def rate_control_args (bps : Int) : List String :=
  ["-b:v", toString (bps.fdiv 1000) ++ "k",
   "-maxrate", toString ((bps.fdiv 1000 * 12).fdiv 10) ++ "k",
   "-bufsize", toString (bps.fdiv 1000 * 2) ++ "k"]

/-- Encoder-family tuning flags of the precise branch (src/Args.py lines
    173-186); videotoolbox deliberately adds nothing, and the match has no
    default case, so an unknown family also adds nothing. -/
def encoder_tuning_flags (enc : String) : List String :=
  if enc = "nvenc" then ["-rc", "vbr_hq", "-preset", "p5"]
  else if enc = "amf" then ["-quality", "balanced"]
  else if enc = "qsv" then ["-preset", "medium"]
  else if enc = "vaapi" then ["-vf", "format=nv12,hwupload"]
  else if enc = "videotoolbox" then []
  else if enc = "cpu" then ["-preset", "slow"]
  else []

/-- Arguments appended by the fast case (src/Args.py lines 123-131).
    Python `if self.duration:` is `duration ≠ ""`. -/
def fast_args (a : ArgsState) : List String :=
  ["-ss", a.start, "-i", a.input] ++
  (if a.duration ≠ "" then ["-t", a.duration] else []) ++
  (if a.convert_mp4 then ["-c:v", "libx264", "-preset", "veryfast", "-crf", "20"]
   else ["-c:v", "copy"])

/-- Arguments appended by the precise case (src/Args.py lines 133-186),
    in the order the source appends them. -/
def precise_args (a : ArgsState) : List String :=
  pre_input_args a.chosen_hwaccel a.chosen_hwdecoder ++
  ["-i", a.input, "-ss", a.start] ++
  (if a.duration ≠ "" then ["-t", a.duration] else []) ++
  ["-c:v", precise_enc_name a] ++
  rate_control_args a.source_bitrate_bps ++
  encoder_tuning_flags a.chosen_encoder

/-- Arguments appended by the match on mode (src/Args.py lines 122-186):
    the match has cases only for "fast" and "precise" and NO default
    case, so any other mode value falls through appending nothing. -/
def mode_args (a : ArgsState) : List String :=
  if a.mode = "fast" then fast_args a
  else if a.mode = "precise" then precise_args a
  else []

/-- Audio arguments (src/Args.py lines 188-191). -/
def audio_args (convert_mp4 : Bool) : List String :=
  if convert_mp4 then ["-c:a", "aac", "-b:a", "160k"] else ["-c:a", "copy"]

/-- Fixed trailer ending in the output path (src/Args.py lines 193-204). -/
def trailer_args (output : String) : List String :=
  ["-y", "-fflags", "+genpts", "-avoid_negative_ts", "make_zero",
   "-reset_timestamps", "1", "-movflags", "+faststart", output]

/-- Args.build_command (src/Args.py lines 119-205): starts from
    `[FFMPEG_PATH]` and appends, in the order of the source, the
    mode-dependent arguments, the audio arguments and the trailer. -/
def build_command (a : ArgsState) : List String :=
  [a.ffmpegPath] ++ mode_args a ++ audio_args a.convert_mp4 ++
    trailer_args a.output

/-- An infix stays an infix after appending on the right. -/
theorem isInfix_append_right {α : Type} {l m : List α} (n : List α)
    (h : l <:+: m) : l <:+: m ++ n :=
  h.trans (List.prefix_append m n).isInfix

/-- An infix stays an infix after appending on the left. -/
theorem isInfix_append_left {α : Type} {l m : List α} (n : List α)
    (h : l <:+: m) : l <:+: n ++ m :=
  h.trans (List.suffix_append n m).isInfix

/-- C2: in Precise mode the synthesized command contains the contiguous
    rate-control block derived by exact integer arithmetic from the source
    bitrate: target `kbps = bps // 1000` (floor division), maxrate
    `kbps * 12 // 10`, bufsize `kbps * 2`, each rendered with a `k`
    suffix. -/
theorem C2_precise_rate_control (a : ArgsState) (hm : a.mode = "precise")
    (hb : 0 ≤ a.source_bitrate_bps) :
    ["-b:v", toString (a.source_bitrate_bps.fdiv 1000) ++ "k",
     "-maxrate",
       toString ((a.source_bitrate_bps.fdiv 1000 * 12).fdiv 10) ++ "k",
     "-bufsize", toString (a.source_bitrate_bps.fdiv 1000 * 2) ++ "k"]
      <:+: build_command a := by
  have hm2 : mode_args a = precise_args a := by
    simp [mode_args, hm]
  have hblock :
      (["-b:v", toString (a.source_bitrate_bps.fdiv 1000) ++ "k",
        "-maxrate",
          toString ((a.source_bitrate_bps.fdiv 1000 * 12).fdiv 10) ++ "k",
        "-bufsize", toString (a.source_bitrate_bps.fdiv 1000 * 2) ++ "k"] :
        List String) = rate_control_args a.source_bitrate_bps := rfl
  unfold build_command
  rw [hm2, hblock]
  apply isInfix_append_right
  apply isInfix_append_right
  apply isInfix_append_left
  unfold precise_args
  apply isInfix_append_right
  exact (List.suffix_append _ _).isInfix

/-- Concrete Precise-mode Args instance: nvenc chosen, cuda hwaccel,
    probed source bitrate 5000000 bps. -/
def examplePrecise : ArgsState :=
  ⟨"ffmpeg", "in.mkv", "5", "10", "precise", "out.mp4", true, 5000000,
   "nvenc", some "cuda", some "h264_cuvid"⟩

/-- C2 witness: 5000000 bps yields -b:v 5000k -maxrate 6000k
    -bufsize 10000k. -/
theorem C2_precise_rate_control_witness :
    (["-b:v", "5000k", "-maxrate", "6000k", "-bufsize", "10000k"] :
      List String) <:+: build_command examplePrecise :=
  C2_precise_rate_control examplePrecise rfl (by decide)

/-- C3: build_command with an unrecognized mode silently returns an
    argument sequence — the Python match statement has no default case —
    instead of raising the fatal error the spec requires; evaluated here
    at a concrete Args instance with mode "slow". -/
theorem C3_unknown_mode_returns :
    build_command
      ⟨"ffmpeg", "in.mkv", "00:00:01", "", "slow", "out.mkv", false, 0,
       "cpu", none, none⟩ =
    ["ffmpeg", "-c:a", "copy", "-y", "-fflags", "+genpts",
     "-avoid_negative_ts", "make_zero", "-reset_timestamps", "1",
     "-movflags", "+faststart", "out.mkv"] := by
  decide

/-- C4: every argument sequence build_command returns is non-empty, starts
    with the configured engine executable path and ends with the resolved
    output path — in every mode, including unrecognized ones. -/
theorem C4_command_shape (a : ArgsState) :
    build_command a ≠ [] ∧
    (build_command a).head? = some a.ffmpegPath ∧
    (build_command a).getLast? = some a.output := by
  have hlast : (build_command a).getLast? = some a.output := by
    unfold build_command
    rw [List.getLast?_append]
    rfl
  have hhead : (build_command a).head? = some a.ffmpegPath := rfl
  refine ⟨?_, hhead, hlast⟩
  intro hnil
  rw [hnil] at hhead
  exact absurd hhead (by simp)

/-- In Fast mode the mode match takes the fast branch. -/
theorem mode_args_fast (a : ArgsState) (ha : a.mode = "fast") :
    mode_args a = fast_args a := by
  simp [mode_args, ha]

/-- C10: in Fast mode the synthesized command is independent of the
    capability snapshot and of the probed codec/bitrate: two requests
    agreeing on engine path, input, start, duration, compatibility flag
    and output — but with arbitrary chosen encoder, hwaccel, hwdecoder
    and bitrate — produce identical argument sequences, whose video-codec
    arguments are exactly `-c:v libx264 -preset veryfast -crf 20` when
    convert_mp4 is set and `-c:v copy` otherwise. -/
theorem C10_fast_mode_independent (a b : ArgsState)
    (ha : a.mode = "fast") (hb : b.mode = "fast")
    (h1 : a.ffmpegPath = b.ffmpegPath) (h2 : a.input = b.input)
    (h3 : a.start = b.start) (h4 : a.duration = b.duration)
    (h5 : a.convert_mp4 = b.convert_mp4) (h6 : a.output = b.output) :
    build_command a = build_command b ∧
    (a.convert_mp4 = true →
      (["-c:v", "libx264", "-preset", "veryfast", "-crf", "20"] : List String)
        <:+: build_command a) ∧
    (a.convert_mp4 = false →
      (["-c:v", "copy"] : List String) <:+: build_command a) := by
  refine ⟨?_, ?_, ?_⟩
  · unfold build_command
    rw [mode_args_fast a ha, mode_args_fast b hb]
    unfold fast_args audio_args trailer_args
    rw [h1, h2, h3, h4, h5, h6]
  · intro hc
    unfold build_command
    apply isInfix_append_right
    apply isInfix_append_right
    apply isInfix_append_left
    rw [mode_args_fast a ha]
    unfold fast_args
    rw [hc, if_pos rfl]
    exact (List.suffix_append _ _).isInfix
  · intro hc
    unfold build_command
    apply isInfix_append_right
    apply isInfix_append_right
    apply isInfix_append_left
    rw [mode_args_fast a ha]
    unfold fast_args
    rw [hc, if_neg (show ¬(false = true) by decide)]
    exact (List.suffix_append _ _).isInfix

/-- Concrete Fast-mode request against a cpu-only environment. -/
def exampleFastA : ArgsState :=
  ⟨"ffmpeg", "in.mkv", "3", "", "fast", "out.mkv", false, 0, "cpu", none, none⟩

/-- The same Fast-mode request against an nvenc environment with probe
    results present. -/
def exampleFastB : ArgsState :=
  ⟨"ffmpeg", "in.mkv", "3", "", "fast", "out.mkv", false, 999000, "nvenc",
   some "cuda", some "hevc_cuvid"⟩

/-- C10 witness: the two environments yield the identical command. -/
theorem C10_fast_mode_independent_witness :
    build_command exampleFastA = build_command exampleFastB :=
  (C10_fast_mode_independent exampleFastA exampleFastB
    rfl rfl rfl rfl rfl rfl rfl rfl).1
